import Mathlib

/-!
Shallow embedding of the `operator!` declarative macro of the operator-sugar
crate (src/lib.rs).  The macro has eleven `macro_rules` alternatives, one per
operator token; each alternative captures the same surrounding fragments
(impl-level attributes, an optional brace-delimited generics clause, the two
operand types, fn-level attributes, the two operand binding names, a result
type and a body block) and emits one trait-implementation block.  We model the
invocation and the emitted implementation as explicit syntax records, each
rule as a pair of a match predicate and an expansion function, and the macro
as a first-match scan over the rule list, exactly mirroring how `macro_rules`
tries its alternatives in order.
-/

namespace OperatorSugar

/-- A Rust type expression as captured by a `$X:ty` fragment.  We keep types
essentially opaque (a string), except that a leading reference marker `&` is
represented structurally, because the indexing rule of the macro pattern-matches
on a literal leading `&` in the result-type position. -/
inductive RustTy where
  | path (s : String)
  | ref (t : RustTy)
deriving DecidableEq, Repr

/-- The shape of the operator position in an invocation: either the two operand
names separated by a literal operator token (`$a OP $b`), or the bracket form
(`$a[$b]`) used for indexing. -/
inductive OpShape where
  | sym (tok : String)
  | brackets
deriving DecidableEq, Repr

/-- A body expression.  The macro copies the body tokens verbatim; to give the
doc-test bodies (e.g. `Answer(a.0 + b.0)` and `&a.0[b.0]`) a runtime meaning we
embed them in a small expression language over i32 values, newtype wrappers and
vectors. -/
inductive Expr where
  | var (name : String)
  | field0 (e : Expr)
  | construct (name : String) (e : Expr)
  | bin (tok : String) (l r : Expr)
  | index (arr idx : Expr)
  | ref (e : Expr)
deriving DecidableEq, Repr

/-- A runtime value: an i32, a `Vec<i32>`, or a newtype-wrapped value such as
`Left(1)`. -/
inductive Value where
  | int (n : Int)
  | arr (elems : List Int)
  | construct (name : String) (v : Value)
deriving DecidableEq, Repr

/-- Interpret an `Int` as a 32-bit two's-complement value (wrap into
`[-2^31, 2^31)`). -/
def wrap32 (n : Int) : Int := (n + 2 ^ 31) % 2 ^ 32 - 2 ^ 31

/-- The unsigned 32-bit representation of an i32 value. -/
def toU32 (n : Int) : Nat := (n % 2 ^ 32).toNat

/-- Rust i32 semantics of the binary operator written with token `tok`,
as used in the doc-test bodies.  Division and remainder by zero (and the
`i32::MIN / -1` overflow) panic in Rust, modelled as `none`; addition,
subtraction, multiplication and shifts use the wrapping (release-mode)
semantics; shift amounts are masked to 5 bits as Rust does. -/
def i32bin : String → Int → Int → Option Int
  | "+", a, b => some (wrap32 (a + b))
  | "-", a, b => some (wrap32 (a - b))
  | "*", a, b => some (wrap32 (a * b))
  | "/", a, b =>
      if b = 0 ∨ (a = -(2 ^ 31) ∧ b = -1) then none else some (wrap32 (Int.tdiv a b))
  | "%", a, b =>
      if b = 0 ∨ (a = -(2 ^ 31) ∧ b = -1) then none else some (wrap32 (Int.tmod a b))
  | "&", a, b => some (wrap32 (Int.ofNat (Nat.land (toU32 a) (toU32 b))))
  | "|", a, b => some (wrap32 (Int.ofNat (Nat.lor (toU32 a) (toU32 b))))
  | "^", a, b => some (wrap32 (Int.ofNat (Nat.xor (toU32 a) (toU32 b))))
  | "<<", a, b => some (wrap32 (Int.ofNat (Nat.shiftLeft (toU32 a) (toU32 b % 32))))
  | ">>", a, b => some (Int.fdiv a (2 ^ (toU32 b % 32)))
  | _, _, _ => none

/-- Evaluate a body expression under an environment binding variable names to
values.  References are transparent (Rust auto-dereferences the reference the
`index` method returns). -/
def evalExpr (env : String → Option Value) : Expr → Option Value
  | .var n => env n
  | .field0 e =>
      match evalExpr env e with
      | some (Value.construct _ v) => some v
      | _ => none
  | .construct n e =>
      match evalExpr env e with
      | some v => some (Value.construct n v)
      | none => none
  | .bin tok l r =>
      match evalExpr env l, evalExpr env r with
      | some (Value.int a), some (Value.int b) =>
          match i32bin tok a b with
          | some c => some (Value.int c)
          | none => none
      | _, _ => none
  | .index a i =>
      match evalExpr env a, evalExpr env i with
      | some (Value.arr l), some (Value.int n) =>
          if n < 0 then none
          else
            match l[n.toNat]? with
            | some m => some (Value.int m)
            | none => none
      | _, _ => none
  | .ref e => evalExpr env e

/-- An invocation of the `operator!` macro: the token-level input captured by a
rule's pattern
`$(#[$impl_attr:meta])* $({ $($generics:tt)* })? $A:ty, $B:ty :
 $(#[$fn_attr:meta])* $a:ident OP $b:ident -> $C:ty { $($body:tt)* }`.
Attributes and the generics clause are opaque token groups; for the indexing
rule the written result type is `& $C:ty`, represented as `RustTy.ref _`. -/
structure Invocation where
  implAttrs : List String
  generics : Option (List String)
  lhsTy : RustTy
  rhsTy : RustTy
  fnAttrs : List String
  lhsName : String
  op : OpShape
  rhsName : String
  resultTy : RustTy
  body : Expr
deriving DecidableEq, Repr

/-- A Rust path such as `::core::ops::Add`: whether it is absolute (leading
`::`) and its segments. -/
structure RustPath where
  absolute : Bool
  segments : List String
deriving DecidableEq, Repr

/-- The trait-implementation block a rule emits:
`$(#[$impl_attr])* impl $(<generics>)? TRAIT<$B> for $A {
   type Output = ...;
   $(#[$fn_attr])* fn METHOD(self-or-&self, $b: $B) -> Output-or-&Output {
     let $a = self;  BODY } }`. -/
structure TraitImpl where
  implAttrs : List String
  generics : Option (List String)
  traitPath : RustPath
  traitArg : RustTy
  selfTy : RustTy
  outputTy : RustTy
  fnAttrs : List String
  methodName : String
  selfByRef : Bool
  argName : String
  argTy : RustTy
  returnsRef : Bool
  bindName : String
  body : Expr
deriving DecidableEq, Repr

/-- One `macro_rules` alternative: a pattern (what invocations it matches) and
a template (the implementation block it expands to). -/
structure Rule where
  accepts : Invocation → Bool
  expand : Invocation → TraitImpl

/-- The path `::core::ops::NAME`, as written in every rule template. -/
def coreOps (name : String) : RustPath := ⟨true, ["core", "ops", name]⟩

/-- The common shape of the ten symbolic-operator rules: the pattern requires
the literal token `tok` between the operand names, and the template implements
`::core::ops::TRAIT<$B> for $A` with `type Output = $C`, a by-value method
`fn METHOD(self, $b: $B) -> Self::Output { let $a = self; BODY }`. -/
def symRule (tok traitName methodName : String) : Rule where
  accepts inv :=
    match inv.op with
    | .sym t => t == tok
    | .brackets => false
  expand inv :=
    { implAttrs := inv.implAttrs
      generics := inv.generics
      traitPath := coreOps traitName
      traitArg := inv.rhsTy
      selfTy := inv.lhsTy
      outputTy := inv.resultTy
      fnAttrs := inv.fnAttrs
      methodName := methodName
      selfByRef := false
      argName := inv.rhsName
      argTy := inv.rhsTy
      returnsRef := false
      bindName := inv.lhsName
      body := inv.body }

/-- Rule 1 of the macro: `$a + $b -> $C` emits `impl ::core::ops::Add<$B>`. -/
def ruleAdd : Rule := symRule "+" "Add" "add"

/-- Rule 2: `$a - $b -> $C` emits `impl ::core::ops::Sub<$B>`. -/
def ruleSub : Rule := symRule "-" "Sub" "sub"

/-- Rule 3: `$a * $b -> $C` emits `impl ::core::ops::Mul<$B>`. -/
def ruleMul : Rule := symRule "*" "Mul" "mul"

/-- Rule 4: `$a / $b -> $C` emits `impl ::core::ops::Div<$B>`. -/
def ruleDiv : Rule := symRule "/" "Div" "div"

/-- Rule 5: `$a % $b -> $C` emits `impl ::core::ops::Rem<$B>`. -/
def ruleRem : Rule := symRule "%" "Rem" "rem"

/-- Rule 6: `$a & $b -> $C` emits `impl ::core::ops::BitAnd<$B>`. -/
def ruleBitAnd : Rule := symRule "&" "BitAnd" "bitand"

/-- Rule 7: `$a | $b -> $C` emits `impl ::core::ops::BitOr<$B>`. -/
def ruleBitOr : Rule := symRule "|" "BitOr" "bitor"

/-- Rule 8: `$a ^ $b -> $C` emits `impl ::core::ops::BitXor<$B>`. -/
def ruleBitXor : Rule := symRule "^" "BitXor" "bitxor"

/-- Rule 9: `$a << $b -> $C` emits `impl ::core::ops::Shl<$B>`. -/
def ruleShl : Rule := symRule "<<" "Shl" "shl"

/-- Rule 10: `$a >> $b -> $C` emits `impl ::core::ops::Shr<$B>`. -/
def ruleShr : Rule := symRule ">>" "Shr" "shr"

/-- Rule 11 of the macro: `$a[$b] -> & $C:ty` (the written result type must
carry a literal leading `&`) emits
`impl ::core::ops::Index<$B> for $A { type Output = $C;
  fn index(&self, $b: $B) -> &Self::Output { let $a = self; BODY } }`,
where `$C` is the result type with the leading `&` stripped. -/
def ruleIndex : Rule where
  accepts inv :=
    match inv.op, inv.resultTy with
    | .brackets, .ref _ => true
    | _, _ => false
  expand inv :=
    { implAttrs := inv.implAttrs
      generics := inv.generics
      traitPath := coreOps "Index"
      traitArg := inv.rhsTy
      selfTy := inv.lhsTy
      outputTy :=
        match inv.resultTy with
        | .ref c => c
        | t => t
      fnAttrs := inv.fnAttrs
      methodName := "index"
      selfByRef := true
      argName := inv.rhsName
      argTy := inv.rhsTy
      returnsRef := true
      bindName := inv.lhsName
      body := inv.body }

/-- The rule alternatives of `operator!`, in source order. -/
def rules : List Rule :=
  [ruleAdd, ruleSub, ruleMul, ruleDiv, ruleRem,
   ruleBitAnd, ruleBitOr, ruleBitXor, ruleShl, ruleShr, ruleIndex]

/-- The `operator!` macro: try the rule alternatives in order, expand with the
first one whose pattern matches; if none matches, expansion fails (a
compile-time rejection producing no output, modelled as `none`). -/
def operator (inv : Invocation) : Option TraitImpl :=
  match rules.find? (fun r => r.accepts inv) with
  | some r => some (r.expand inv)
  | none => none

/-- The ten literal symbolic operator tokens accepted between the operand
names, in rule order. -/
def symTokens : List String :=
  ["+", "-", "*", "/", "%", "&", "|", "^", "<<", ">>"]

/-- All accepted operator forms: the ten symbolic tokens plus the bracket
(indexing) form. -/
def opForms : List OpShape :=
  [.sym "+", .sym "-", .sym "*", .sym "/", .sym "%",
   .sym "&", .sym "|", .sym "^", .sym "<<", .sym ">>", .brackets]

/-- The trait implemented for a symbolic operator token (the fixed
token-to-trait mapping of the ten symbolic rules). -/
def symTraitName : String → String
  | "+" => "Add"
  | "-" => "Sub"
  | "*" => "Mul"
  | "/" => "Div"
  | "%" => "Rem"
  | "&" => "BitAnd"
  | "|" => "BitOr"
  | "^" => "BitXor"
  | "<<" => "Shl"
  | ">>" => "Shr"
  | _ => ""

/-- The method generated for a symbolic operator token (the fixed
token-to-method mapping of the ten symbolic rules). -/
def symMethodName : String → String
  | "+" => "add"
  | "-" => "sub"
  | "*" => "mul"
  | "/" => "div"
  | "%" => "rem"
  | "&" => "bitand"
  | "|" => "bitor"
  | "^" => "bitxor"
  | "<<" => "shl"
  | ">>" => "shr"
  | _ => ""

/-- Run the generated method of an implementation block on a receiver and an
argument value: the method binds `$b` to the argument, then `let $a = self;`
(so `$a` shadows `$b` when the names coincide), then evaluates the body. -/
def applyImpl (ti : TraitImpl) (selfVal arg : Value) : Option Value :=
  evalExpr
    (fun n =>
      if n = ti.bindName then some selfVal
      else if n = ti.argName then some arg
      else none)
    ti.body

/-- Expand an invocation and run the generated method on two operand values:
`none` if no rule matches or the body fails to evaluate. -/
def runOverload (inv : Invocation) (l r : Value) : Option Value :=
  match operator inv with
  | some ti => applyImpl ti l r
  | none => none

/-- The minimal doc-test invocation for the operator with symbolic token
`tok`: `operator!(Left, Right: a TOK b -> Answer { Answer(a.0 TOK b.0) })`. -/
def docInvocation (tok : String) : Invocation where
  implAttrs := []
  generics := none
  lhsTy := .path "Left"
  rhsTy := .path "Right"
  fnAttrs := []
  lhsName := "a"
  op := .sym tok
  rhsName := "b"
  resultTy := .path "Answer"
  body := .construct "Answer" (.bin tok (.field0 (.var "a")) (.field0 (.var "b")))

/-- The doc-test invocation for indexing:
`operator!(Left, Right: a[b] -> &i32 { &a.0[b.0] })`. -/
def docIndexInvocation : Invocation where
  implAttrs := []
  generics := none
  lhsTy := .path "Left"
  rhsTy := .path "Right"
  fnAttrs := []
  lhsName := "a"
  op := .brackets
  rhsName := "b"
  resultTy := .ref (.path "i32")
  body := .ref (.index (.field0 (.var "a")) (.field0 (.var "b")))

/-- `Left(n)` with an i32 payload. -/
def vLeft (n : Int) : Value := .construct "Left" (.int n)

/-- `Right(n)` with an i32 payload. -/
def vRight (n : Int) : Value := .construct "Right" (.int n)

/-- `Answer(n)` with an i32 payload. -/
def vAnswer (n : Int) : Value := .construct "Answer" (.int n)

/-- The generics doc-test invocation:
`operator!({T: Add<i32, Output = i32>} Left<T>, Right: a + b -> Answer {
   Answer(a.0 + b.0) })`, with the brace-delimited generics clause kept as an
opaque token group. -/
def docGenericInvocation : Invocation where
  implAttrs := []
  generics := some ["T:", "Add<i32,", "Output", "=", "i32>"]
  lhsTy := .path "Left<T>"
  rhsTy := .path "Right"
  fnAttrs := []
  lhsName := "a"
  op := .sym "+"
  rhsName := "b"
  resultTy := .path "Answer"
  body := .construct "Answer" (.bin "+" (.field0 (.var "a")) (.field0 (.var "b")))

/-- If expansion succeeds, the produced implementation block is the expansion
of some rule in the rule list applied to the invocation. -/
theorem operator_some_mem {inv : Invocation} {ti : TraitImpl}
    (h : operator inv = some ti) : ∃ r ∈ rules, ti = r.expand inv := by
  unfold operator at h
  cases hf : rules.find? (fun r => r.accepts inv) with
  | none => rw [hf] at h; cases h
  | some r =>
      rw [hf] at h
      exact ⟨r, List.mem_of_find?_eq_some hf, (Option.some.inj h).symm⟩

/-- A symbolic operator token outside the supported ten is accepted by no rule,
so expansion fails. -/
theorem sym_not_mem_no_rule (inv : Invocation) (t : String)
    (hop : inv.op = OpShape.sym t) (hm : t ∉ symTokens) :
    operator inv = none := by
  have hs : t ≠ "+" ∧ t ≠ "-" ∧ t ≠ "*" ∧ t ≠ "/" ∧ t ≠ "%" ∧ t ≠ "&" ∧
      t ≠ "|" ∧ t ≠ "^" ∧ t ≠ "<<" ∧ t ≠ ">>" := by
    simpa [symTokens, not_or] using hm
  obtain ⟨n1, n2, n3, n4, n5, n6, n7, n8, n9, n10⟩ := hs
  unfold operator
  rw [List.find?_eq_none.mpr]
  intro r hr
  fin_cases hr <;>
    simp [ruleAdd, ruleSub, ruleMul, ruleDiv, ruleRem, ruleBitAnd, ruleBitOr,
      ruleBitXor, ruleShl, ruleShr, ruleIndex, symRule, hop,
      n1, n2, n3, n4, n5, n6, n7, n8, n9, n10]

/-- A bracket-form invocation whose written result type has no leading `&` is
accepted by no rule, so expansion fails. -/
theorem brackets_no_ref_no_rule (inv : Invocation)
    (hop : inv.op = OpShape.brackets)
    (hC : ∀ c, inv.resultTy ≠ RustTy.ref c) :
    operator inv = none := by
  unfold operator
  rw [List.find?_eq_none.mpr]
  intro r hr
  rcases hCt : inv.resultTy with s | c
  · fin_cases hr <;>
      simp [ruleAdd, ruleSub, ruleMul, ruleDiv, ruleRem, ruleBitAnd, ruleBitOr,
        ruleBitXor, ruleShl, ruleShr, ruleIndex, symRule, hop, hCt]
  · exact absurd hCt (hC c)

/-- Claim C1: for every well-formed invocation whose operator token is one of
`+ - * / % & | ^ << >>`, the expansion is exactly the corresponding template:
an implementation of the standard trait mapped from the token, parameterized by
the right operand type, for the left operand type, whose associated Output type
equals the supplied result type, containing exactly one method named by the
fixed token-to-method mapping that takes the right operand by value, binds the
left-operand name to self and the right-operand name to the argument, then
executes the supplied body verbatim with its value returned directly. -/
theorem operator_sym_expansion (inv : Invocation) (tok : String)
    (hop : inv.op = OpShape.sym tok) (hmem : tok ∈ symTokens) :
    operator inv = some
      { implAttrs := inv.implAttrs
        generics := inv.generics
        traitPath := coreOps (symTraitName tok)
        traitArg := inv.rhsTy
        selfTy := inv.lhsTy
        outputTy := inv.resultTy
        fnAttrs := inv.fnAttrs
        methodName := symMethodName tok
        selfByRef := false
        argName := inv.rhsName
        argTy := inv.rhsTy
        returnsRef := false
        bindName := inv.lhsName
        body := inv.body } := by
  fin_cases hmem <;>
    simp [operator, rules, ruleAdd, ruleSub, ruleMul, ruleDiv, ruleRem, ruleBitAnd,
      ruleBitOr, ruleBitXor, ruleShl, ruleShr, ruleIndex, symRule, List.find?, hop,
      symTraitName, symMethodName]

/-- Witness for C1: the addition doc-test invocation expands to the Add
template. -/
theorem operator_sym_expansion_witness :
    (docInvocation "+").op = OpShape.sym "+" ∧ "+" ∈ symTokens ∧
    operator (docInvocation "+") = some
      { implAttrs := [], generics := none, traitPath := coreOps "Add",
        traitArg := RustTy.path "Right", selfTy := RustTy.path "Left",
        outputTy := RustTy.path "Answer", fnAttrs := [], methodName := "add",
        selfByRef := false, argName := "b", argTy := RustTy.path "Right",
        returnsRef := false, bindName := "a",
        body := Expr.construct "Answer"
          (Expr.bin "+" (Expr.field0 (Expr.var "a")) (Expr.field0 (Expr.var "b"))) } :=
  ⟨rfl, by decide, operator_sym_expansion (docInvocation "+") "+" rfl (by decide)⟩

/-- Claim C2: a bracket-form (indexing) invocation matches exactly when the
written result type carries a leading `&`; the generated implementation targets
the Index trait, its associated Output type is the result type with the leading
`&` stripped, and the generated `index` method takes the receiver by reference,
the right operand by value, and returns the output type by reference. -/
theorem operator_index_expansion (inv : Invocation)
    (hop : inv.op = OpShape.brackets) :
    ((operator inv).isSome = true ↔ ∃ c, inv.resultTy = RustTy.ref c) ∧
    (∀ c, inv.resultTy = RustTy.ref c →
      operator inv = some
        { implAttrs := inv.implAttrs
          generics := inv.generics
          traitPath := coreOps "Index"
          traitArg := inv.rhsTy
          selfTy := inv.lhsTy
          outputTy := c
          fnAttrs := inv.fnAttrs
          methodName := "index"
          selfByRef := true
          argName := inv.rhsName
          argTy := inv.rhsTy
          returnsRef := true
          bindName := inv.lhsName
          body := inv.body }) := by
  rcases hCt : inv.resultTy with s | c
  · constructor
    · have hnone : operator inv = none :=
        brackets_no_ref_no_rule inv hop (by rw [hCt]; intro c hc; cases hc)
      rw [hnone]
      simp [hCt]
    · intro c hc
      cases hc
  · constructor
    · simp [operator, rules, ruleAdd, ruleSub, ruleMul, ruleDiv, ruleRem, ruleBitAnd,
        ruleBitOr, ruleBitXor, ruleShl, ruleShr, ruleIndex, symRule, List.find?,
        hop, hCt]
    · intro d hd
      obtain rfl : c = d := RustTy.ref.inj hd
      simp [operator, rules, ruleAdd, ruleSub, ruleMul, ruleDiv, ruleRem, ruleBitAnd,
        ruleBitOr, ruleBitXor, ruleShl, ruleShr, ruleIndex, symRule, List.find?,
        hop, hCt]

/-- Witness for C2: the indexing doc-test invocation (result type `&i32`)
expands to the Index template with Output `i32`. -/
theorem operator_index_expansion_witness :
    docIndexInvocation.op = OpShape.brackets ∧
    docIndexInvocation.resultTy = RustTy.ref (RustTy.path "i32") ∧
    operator docIndexInvocation = some
      { implAttrs := [], generics := none, traitPath := coreOps "Index",
        traitArg := RustTy.path "Right", selfTy := RustTy.path "Left",
        outputTy := RustTy.path "i32", fnAttrs := [], methodName := "index",
        selfByRef := true, argName := "b", argTy := RustTy.path "Right",
        returnsRef := true, bindName := "a",
        body := Expr.ref (Expr.index (Expr.field0 (Expr.var "a"))
          (Expr.field0 (Expr.var "b"))) } :=
  ⟨rfl, rfl,
    (operator_index_expansion docIndexInvocation rfl).2 (RustTy.path "i32") rfl⟩

/-- Counterexample to Claim C3 as stated: the rule set does not have twelve
alternatives and the accepted operator-form set does not have twelve members
(both have eleven). -/
theorem rule_count_not_twelve : ¬(rules.length = 12 ∧ opForms.length = 12) := by
  intro h
  exact absurd h.1 (by decide)

/-- Claim C3 (amended): the expansion rule set consists of exactly eleven rule
alternatives, one per supported operator token; the accepted operator-form set
has exactly eleven distinct members, and they are the only accepted input
forms: any invocation that expands successfully uses one of them. -/
theorem rule_count_eleven :
    rules.length = 11 ∧ opForms.length = 11 ∧ opForms.Nodup ∧
    ∀ inv : Invocation, operator inv ≠ none → inv.op ∈ opForms := by
  refine ⟨rfl, rfl, by decide, fun inv h => ?_⟩
  rcases hop : inv.op with t | _
  · by_cases hm : t ∈ symTokens
    · fin_cases hm <;> simp [opForms]
    · exact absurd (sym_not_mem_no_rule inv t hop hm) h
  · simp [opForms]

/-- Witness for C3 (amended): the addition doc-test invocation expands, and its
operator form is in the accepted set. -/
theorem rule_count_eleven_witness :
    operator (docInvocation "+") ≠ none ∧ (docInvocation "+").op ∈ opForms :=
  ⟨by decide, rule_count_eleven.2.2.2 (docInvocation "+") (by decide)⟩

/-- Claim C4: for any invocation whose operator token is outside the supported
set, or any indexing invocation missing the leading `&` on the result type, no
rule matches and expansion fails producing no output. -/
theorem operator_rejects_unsupported (inv : Invocation)
    (h : (∃ t, inv.op = OpShape.sym t ∧ t ∉ symTokens) ∨
         (inv.op = OpShape.brackets ∧ ∀ c, inv.resultTy ≠ RustTy.ref c)) :
    operator inv = none := by
  rcases h with ⟨t, hop, hm⟩ | ⟨hop, hC⟩
  · exact sym_not_mem_no_rule inv t hop hm
  · exact brackets_no_ref_no_rule inv hop hC

/-- Witness for C4: an invocation written with the unsupported token `@` fails
to expand. -/
theorem operator_rejects_unsupported_witness :
    ((∃ t, (docInvocation "@").op = OpShape.sym t ∧ t ∉ symTokens) ∨
     ((docInvocation "@").op = OpShape.brackets ∧
      ∀ c, (docInvocation "@").resultTy ≠ RustTy.ref c)) ∧
    operator (docInvocation "@") = none :=
  ⟨Or.inl ⟨"@", rfl, by decide⟩,
   operator_rejects_unsupported (docInvocation "@") (Or.inl ⟨"@", rfl, by decide⟩)⟩

/-- Claim C5: for every supported operator token, the minimal doc-test
invocation (trivial wrapper operand types, body computing the underlying
operation) yields an implementation whose invocation returns exactly the stated
value: 1+2=3, 1-2=-1, 3*2=6, 8/2=4, 9%5=4, 5&6=4, 5|6=7, 5^6=3, 5<<3=40,
43>>3=5, and indexing [5,6,7] at 1 gives the underlying value 6. -/
theorem operator_doc_examples :
    runOverload (docInvocation "+") (vLeft 1) (vRight 2) = some (vAnswer 3) ∧
    runOverload (docInvocation "-") (vLeft 1) (vRight 2) = some (vAnswer (-1)) ∧
    runOverload (docInvocation "*") (vLeft 3) (vRight 2) = some (vAnswer 6) ∧
    runOverload (docInvocation "/") (vLeft 8) (vRight 2) = some (vAnswer 4) ∧
    runOverload (docInvocation "%") (vLeft 9) (vRight 5) = some (vAnswer 4) ∧
    runOverload (docInvocation "&") (vLeft 5) (vRight 6) = some (vAnswer 4) ∧
    runOverload (docInvocation "|") (vLeft 5) (vRight 6) = some (vAnswer 7) ∧
    runOverload (docInvocation "^") (vLeft 5) (vRight 6) = some (vAnswer 3) ∧
    runOverload (docInvocation "<<") (vLeft 5) (vRight 3) = some (vAnswer 40) ∧
    runOverload (docInvocation ">>") (vLeft 43) (vRight 3) = some (vAnswer 5) ∧
    runOverload docIndexInvocation (Value.construct "Left" (Value.arr [5, 6, 7]))
      (Value.construct "Right" (Value.int 1)) = some (Value.int 6) := by
  decide

/-- Claim C6: whenever expansion succeeds, the implementation-level annotations
appear on the generated implementation block exactly as supplied (same list,
same order) and the function-level annotations appear on the generated method
exactly as supplied, regardless of which operator was selected. -/
theorem operator_preserves_attrs (inv : Invocation) (ti : TraitImpl)
    (h : operator inv = some ti) :
    ti.implAttrs = inv.implAttrs ∧ ti.fnAttrs = inv.fnAttrs := by
  obtain ⟨r, hr, rfl⟩ := operator_some_mem h
  fin_cases hr <;> exact ⟨rfl, rfl⟩

/-- Witness for C6: attribute preservation at the addition doc-test
invocation. -/
theorem operator_preserves_attrs_witness :
    operator (docInvocation "+") = some (ruleAdd.expand (docInvocation "+")) ∧
    ((ruleAdd.expand (docInvocation "+")).implAttrs = (docInvocation "+").implAttrs ∧
     (ruleAdd.expand (docInvocation "+")).fnAttrs = (docInvocation "+").fnAttrs) :=
  ⟨rfl, operator_preserves_attrs (docInvocation "+") (ruleAdd.expand (docInvocation "+")) rfl⟩

/-- Claim C7: whenever expansion succeeds, the generated implementation carries
the generics clause exactly as supplied when the brace-delimited clause is
present, and carries no clause when it is absent. -/
theorem operator_preserves_generics (inv : Invocation) (ti : TraitImpl)
    (h : operator inv = some ti) :
    ti.generics = inv.generics := by
  obtain ⟨r, hr, rfl⟩ := operator_some_mem h
  fin_cases hr <;> rfl

/-- Witness for C7: generics preservation at the generics doc-test
invocation. -/
theorem operator_preserves_generics_witness :
    operator docGenericInvocation = some (ruleAdd.expand docGenericInvocation) ∧
    (ruleAdd.expand docGenericInvocation).generics = docGenericInvocation.generics :=
  ⟨rfl,
   operator_preserves_generics docGenericInvocation (ruleAdd.expand docGenericInvocation) rfl⟩

/-- Claim C8: at most one rule alternative accepts any given well-formed
invocation: the list of rules whose pattern matches it has length at most
one. -/
theorem at_most_one_rule_accepts (inv : Invocation) :
    (rules.filter (fun r => r.accepts inv)).length ≤ 1 := by
  rcases hop : inv.op with t | _
  · by_cases hm : t ∈ symTokens
    · fin_cases hm <;>
        simp [rules, ruleAdd, ruleSub, ruleMul, ruleDiv, ruleRem, ruleBitAnd,
          ruleBitOr, ruleBitXor, ruleShl, ruleShr, ruleIndex, symRule,
          List.filter, hop]
    · have hs : t ≠ "+" ∧ t ≠ "-" ∧ t ≠ "*" ∧ t ≠ "/" ∧ t ≠ "%" ∧ t ≠ "&" ∧
          t ≠ "|" ∧ t ≠ "^" ∧ t ≠ "<<" ∧ t ≠ ">>" := by
        simpa [symTokens, not_or] using hm
      obtain ⟨n1, n2, n3, n4, n5, n6, n7, n8, n9, n10⟩ := hs
      have b1 : (t == "+") = false := by simp [n1]
      have b2 : (t == "-") = false := by simp [n2]
      have b3 : (t == "*") = false := by simp [n3]
      have b4 : (t == "/") = false := by simp [n4]
      have b5 : (t == "%") = false := by simp [n5]
      have b6 : (t == "&") = false := by simp [n6]
      have b7 : (t == "|") = false := by simp [n7]
      have b8 : (t == "^") = false := by simp [n8]
      have b9 : (t == "<<") = false := by simp [n9]
      have b10 : (t == ">>") = false := by simp [n10]
      simp [rules, ruleAdd, ruleSub, ruleMul, ruleDiv, ruleRem, ruleBitAnd,
        ruleBitOr, ruleBitXor, ruleShl, ruleShr, ruleIndex, symRule,
        List.filter, hop, b1, b2, b3, b4, b5, b6, b7, b8, b9, b10]
  · rcases hCt : inv.resultTy with s | c <;>
      simp [rules, ruleAdd, ruleSub, ruleMul, ruleDiv, ruleRem, ruleBitAnd,
        ruleBitOr, ruleBitXor, ruleShl, ruleShr, ruleIndex, symRule,
        List.filter, hop, hCt]

/-- Claim C9: expansion is a deterministic pure function of the invocation:
equal invocations produce equal output, and the output depends on nothing but
the invocation. -/
theorem operator_deterministic (inv1 inv2 : Invocation) (h : inv1 = inv2) :
    operator inv1 = operator inv2 := by rw [h]

/-- Witness for C9: determinism at the addition doc-test invocation. -/
theorem operator_deterministic_witness :
    docInvocation "+" = docInvocation "+" ∧
    operator (docInvocation "+") = operator (docInvocation "+") :=
  ⟨rfl, operator_deterministic (docInvocation "+") (docInvocation "+") rfl⟩

/-- Claim C10: every generated implementation names the operator trait by an
absolute path whose first two segments are `core` and `ops` (that is, a path
rooted at `::core::ops`), for every supported operator. -/
theorem operator_trait_path_core_ops (inv : Invocation) (ti : TraitImpl)
    (h : operator inv = some ti) :
    ti.traitPath.absolute = true ∧ ti.traitPath.segments.take 2 = ["core", "ops"] := by
  obtain ⟨r, hr, rfl⟩ := operator_some_mem h
  fin_cases hr <;> exact ⟨rfl, rfl⟩

/-- Witness for C10: the multiplication doc-test invocation expands to an
implementation whose trait path is rooted at `::core::ops`. -/
theorem operator_trait_path_core_ops_witness :
    operator (docInvocation "*") = some (ruleMul.expand (docInvocation "*")) ∧
    ((ruleMul.expand (docInvocation "*")).traitPath.absolute = true ∧
     (ruleMul.expand (docInvocation "*")).traitPath.segments.take 2 = ["core", "ops"]) :=
  ⟨rfl, operator_trait_path_core_ops (docInvocation "*") (ruleMul.expand (docInvocation "*")) rfl⟩

end OperatorSugar
